import Mathlib

/- Verification development for the ari-py client library.

Shallow embedding of src/ari/client.py and src/ari/model.py:
  * JSON-like Python values (the trees produced by json.loads),
  * the response promotion engine (ari.model.promote and the per-kind
    id generators / factories behind CLASS_MAP),
  * instance-operation parameter enrichment (BaseObject.__getattr__),
  * the object-event extractor (Client.on_object_event / extract_objects)
    and BaseObject.on_event's identity filter (fn_filter),
  * the event dispatcher (Client.on_event, EventUnsubscriber.close and the
    message receive loop Client.__run).

Python exceptions are modelled with Except PyError; Python mutable state is
passed explicitly.  Callback functions and their bound arguments are abstract
types with decidable equality (Python compares functions and bound argument
tuples with ==, which is identity for functions and structural for tuples). -/

/-- JSON-like Python values: the tree of scalars, lists and dicts handled by
the library.  JValue.null is Python None.  Numbers are modelled as integers
(the identifiers and schema fields this library inspects are never floats). -/
inductive JValue where
  | null
  | bool (b : Bool)
  | num (n : Int)
  | str (s : String)
  | arr (xs : List JValue)
  | obj (fields : List (String × JValue))

mutual

/-- Python == on JSON-like values.  Python equates True with 1 and False
with 0, hence the bool/num cross cases.  dict == in Python is key-based and
order-insensitive; json.loads keeps the textual field order and the identity
values this library compares are strings, so ordered field comparison is
used here. -/
def JValue.beq : JValue → JValue → Bool
  | .null, .null => true
  | .bool a, .bool b => a == b
  | .num a, .num b => a == b
  | .bool a, .num n => (if a then (1 : Int) else 0) == n
  | .num n, .bool a => n == (if a then (1 : Int) else 0)
  | .str a, .str b => a == b
  | .arr xs, .arr ys => JValue.beqList xs ys
  | .obj xs, .obj ys => JValue.beqFields xs ys
  | _, _ => false

/-- Elementwise Python == on lists. -/
def JValue.beqList : List JValue → List JValue → Bool
  | [], [] => true
  | x :: xs, y :: ys => JValue.beq x y && JValue.beqList xs ys
  | _, _ => false

/-- Fieldwise Python == on dict entry lists. -/
def JValue.beqFields : List (String × JValue) → List (String × JValue) → Bool
  | [], [] => true
  | (k1, v1) :: xs, (k2, v2) :: ys => k1 == k2 && JValue.beq v1 v2 && JValue.beqFields xs ys
  | _, _ => false

end

/-- Test for Python None. -/
def JValue.isNull : JValue → Bool
  | .null => true
  | _ => false

/-- Python truthiness bool(v) of a JSON-like value. -/
def jTruthy : JValue → Bool
  | .null => false
  | .bool b => b
  | .num n => !(n == 0)
  | .str s => !(s == "")
  | .arr xs => !xs.isEmpty
  | .obj fs => !fs.isEmpty

/-- Python exceptions that the modelled code paths can raise. -/
inductive PyError where
  | jsonDecodeError
  | keyError
  | typeError
  | attributeError
  | valueError
deriving DecidableEq

/-- First binding of a key in an association list.  Python dicts have unique
keys, so the first binding is the binding. -/
def lookupFirst {κ β : Type} [DecidableEq κ] : List (κ × β) → κ → Option β
  | [], _ => none
  | (k, v) :: rest, key => if k = key then some v else lookupFirst rest key

/-- Python d.get(k): raises AttributeError when the receiver is not a dict. -/
def dictGet : JValue → String → Except PyError (Option JValue)
  | .obj fs, k => .ok (lookupFirst fs k)
  | _, _ => .error .attributeError

/-- Python d.get(k, default). -/
def dictGetD (v : JValue) (k : String) (d : JValue) : Except PyError JValue :=
  match dictGet v k with
  | .ok (some x) => .ok x
  | .ok none => .ok d
  | .error e => .error e

/-- Python subscription d[k]: KeyError when the key is missing, TypeError
when the receiver is not subscriptable by a string. -/
def getItem : JValue → String → Except PyError JValue
  | .obj fs, k =>
    match lookupFirst fs k with
    | some v => .ok v
    | none => .error .keyError
  | _, _ => .error .typeError

/-- Python needle in haystack on character lists (substring occurrence). -/
def containsSub (needle : List Char) : List Char → Bool
  | [] => needle.isEmpty
  | c :: rest => needle.isPrefixOf (c :: rest) || containsSub needle rest

/-- Python s.endswith(suffix). -/
def pyEndsWith (s suffix : String) : Bool :=
  suffix.data.reverse.isPrefixOf s.data.reverse

/-- Python membership test "k in v" for a string k: key membership for dicts,
value membership for lists, substring test for strings, TypeError otherwise. -/
def pyInKey (k : String) : JValue → Except PyError Bool
  | .obj fs => .ok (fs.any (fun kv => kv.1 == k))
  | .arr xs => .ok (xs.any (fun x => JValue.beq x (.str k)))
  | .str s => .ok (containsSub k.data s.data)
  | _ => .error .typeError

/-- Python str() of the scalar values interpolated by the library.  Container
reprs are abbreviated: the library only interpolates the technology/resource
fields of endpoints, which are scalars in every ARI payload. -/
def pyStr : JValue → String
  | .null => "None"
  | .bool true => "True"
  | .bool false => "False"
  | .num n => toString n
  | .str s => s
  | .arr _ => "[...]"
  | .obj _ => "{...}"

/-- Python ref_path.split('/')[-1]: last slash-separated segment; a value
with no .split method raises AttributeError (model.py uses this to extract a
type name from a $ref). -/
def refLastSegment : JValue → Except PyError String
  | .str s => .ok (String.mk ((s.data.reverse.takeWhile (fun c => !(c == '/'))).reverse))
  | _ => .error .attributeError

/-- Python str(status_code) where status_code is either an int or None
(client code leaves it None when the response is not a wrapper object). -/
def statusStr : Option Int → String
  | none => "None"
  | some n => toString n

/-- Domain-object kinds having a BaseObject subclass in model.py.  Sound has
a class (used as a factory by on_sound_event) but no CLASS_MAP entry. -/
inductive Kind where
  | channel
  | bridge
  | endpoint
  | playback
  | liveRecording
  | storedRecording
  | mailbox
  | deviceState
  | sound
deriving DecidableEq

/-- id_as_str of each kind's id_generator (model.py).  Channel, Bridge,
Playback and Sound read field "id"; the recordings, DeviceState and Mailbox
read field "name"; Endpoint joins str(technology) and str(resource) with a
slash (EndpointIdGenerator, evaluating technology first). -/
def idAsStr : Kind → JValue → Except PyError JValue
  | .channel, j => getItem j "id"
  | .bridge, j => getItem j "id"
  | .playback, j => getItem j "id"
  | .sound, j => getItem j "id"
  | .liveRecording, j => getItem j "name"
  | .storedRecording, j => getItem j "name"
  | .deviceState, j => getItem j "name"
  | .mailbox, j => getItem j "name"
  | .endpoint, j =>
    match getItem j "technology" with
    | .error e => .error e
    | .ok t =>
      match getItem j "resource" with
      | .error e => .error e
      | .ok r => .ok (.str (pyStr t ++ "/" ++ pyStr r))

/-- get_params of each kind's id_generator (model.py): the identity-derived
request parameters for an instance-scoped operation. -/
def getIdParams : Kind → JValue → Except PyError (List (String × JValue))
  | .channel, j =>
    match getItem j "id" with
    | .error e => .error e
    | .ok v => .ok [("channelId", v)]
  | .bridge, j =>
    match getItem j "id" with
    | .error e => .error e
    | .ok v => .ok [("bridgeId", v)]
  | .playback, j =>
    match getItem j "id" with
    | .error e => .error e
    | .ok v => .ok [("playbackId", v)]
  | .sound, j =>
    match getItem j "id" with
    | .error e => .error e
    | .ok v => .ok [("soundId", v)]
  | .liveRecording, j =>
    match getItem j "name" with
    | .error e => .error e
    | .ok v => .ok [("recordingName", v)]
  | .storedRecording, j =>
    match getItem j "name" with
    | .error e => .error e
    | .ok v => .ok [("recordingName", v)]
  | .deviceState, j =>
    match getItem j "name" with
    | .error e => .error e
    | .ok v => .ok [("deviceName", v)]
  | .mailbox, j =>
    match getItem j "name" with
    | .error e => .error e
    | .ok v => .ok [("mailboxName", v)]
  | .endpoint, j =>
    match getItem j "technology" with
    | .error e => .error e
    | .ok t =>
      match getItem j "resource" with
      | .error e => .error e
      | .ok r => .ok [("tech", t), ("resource", r)]

/-- A constructed first-class ARI object: BaseObject.__init__ stores the raw
record and the identity computed by the kind's id generator. -/
structure BaseObj where
  kind : Kind
  json : JValue
  id : JValue

/-- A kind's constructor (Channel, Bridge, ... in model.py): computes the
identity from the raw record, raising whatever the id generator raises. -/
def factoryFn (k : Kind) (j : JValue) : Except PyError BaseObj :=
  match idAsStr k j with
  | .ok i => .ok ⟨k, j, i⟩
  | .error e => .error e

/-- CLASS_MAP.get(response_class_name) at the bottom of model.py.
response_class_name can be an arbitrary JSON value (it is copied from the
schema's type field on the primitive path); only the eight registered string
names map to a constructor.  Sound has no entry. -/
def classMap : JValue → Option Kind
  | .str "Bridge" => some .bridge
  | .str "Channel" => some .channel
  | .str "Endpoint" => some .endpoint
  | .str "Playback" => some .playback
  | .str "LiveRecording" => some .liveRecording
  | .str "StoredRecording" => some .storedRecording
  | .str "Mailbox" => some .mailbox
  | .str "DeviceState" => some .deviceState
  | _ => none

/-- The bravado response as destructured at the top of promote: either a
wrapper with status_code and result, or the bare deserialized data. -/
inductive BravadoResponse where
  | incoming (status_code : Int) (result : JValue)
  | raw (data : JValue)

/-- status_code local of promote (stays None on the bare-data path). -/
def statusOf : BravadoResponse → Option Int
  | .incoming sc _ => some sc
  | .raw _ => none

/-- response_data local of promote. -/
def dataOf : BravadoResponse → JValue
  | .incoming _ r => r
  | .raw d => d

/-- Python value returned by promote: raw JSON data (json .null is None), a
single promoted object, or a list of promoted objects. -/
inductive PyVal where
  | json (v : JValue)
  | obj (o : BaseObj)
  | list (os : List BaseObj)

/-- operation_spec.spec_dict['responses'][key].get('schema') in promote. -/
def schemaOfEntry (responses : JValue) (key : String) : Except PyError (Option JValue) :=
  match getItem responses key with
  | .error e => .error e
  | .ok entry => dictGet entry "schema"

/-- success_schema resolution in promote: try the response's own status key
in spec_dict.get('responses', {}), then '200', then 'default'; None when no
entry matches. -/
def resolveSuccessSchema (statusKey : String) (spec : JValue) : Except PyError (Option JValue) :=
  match dictGetD spec "responses" (.obj []) with
  | .error e => .error e
  | .ok responsesD =>
    match pyInKey statusKey responsesD with
    | .error e => .error e
    | .ok true =>
      match getItem spec "responses" with
      | .error e => .error e
      | .ok resp => schemaOfEntry resp statusKey
    | .ok false =>
      match pyInKey "200" responsesD with
      | .error e => .error e
      | .ok true =>
        match getItem spec "responses" with
        | .error e => .error e
        | .ok resp => schemaOfEntry resp "200"
      | .ok false =>
        match pyInKey "default" responsesD with
        | .error e => .error e
        | .ok true =>
          match getItem spec "responses" with
          | .error e => .error e
          | .ok resp => schemaOfEntry resp "default"
        | .ok false => .ok none

/-- The condition success_schema.get('type') == 'array' and
'$ref' in success_schema.get('items', {}), with Python's short circuit:
the membership test (which can raise TypeError) only runs when the type
field is the string 'array'. -/
def arrayRefCond (s : JValue) (t? : Option JValue) : Except PyError Bool :=
  match t? with
  | some (.str "array") =>
    match dictGetD s "items" (.obj []) with
    | .error e => .error e
    | .ok items => pyInKey "$ref" items
  | _ => .ok false

/-- The no-op primitive-array check nested in promote's 'type' branch:
if response_class_name == 'array' and 'items' in success_schema and 'type'
in success_schema['items']: pass.  It produces nothing but can raise. -/
def arrayPrimCheck (s : JValue) (nm : JValue) : Except PyError Unit :=
  match nm with
  | .str "array" =>
    match pyInKey "items" s with
    | .error e => .error e
    | .ok true =>
      match getItem s "items" with
      | .error e => .error e
      | .ok items =>
        match pyInKey "type" items with
        | .error e => .error e
        | .ok _ => .ok ()
    | .ok false => .ok ()
  | _ => .ok ()

/-- Shape analysis of promote: from the resolved success schema compute
(is_list, response_class_name).  A missing or falsy schema yields
(False, 'Unknown'); an array of $refs yields the ref's last segment with
is_list True; a bare $ref yields the last segment; otherwise a declared
'type' is copied verbatim. -/
def analyzeShape : Option JValue → Except PyError (Bool × JValue)
  | none => .ok (false, JValue.str "Unknown")
  | some s =>
    if jTruthy s then
      match dictGet s "type" with
      | .error e => .error e
      | .ok t? =>
        match arrayRefCond s t? with
        | .error e => .error e
        | .ok true =>
          match getItem s "items" with
          | .error e => .error e
          | .ok items =>
            match getItem items "$ref" with
            | .error e => .error e
            | .ok rp =>
              match refLastSegment rp with
              | .error e => .error e
              | .ok nm => .ok (true, JValue.str nm)
        | .ok false =>
          match pyInKey "$ref" s with
          | .error e => .error e
          | .ok true =>
            match getItem s "$ref" with
            | .error e => .error e
            | .ok rp =>
              match refLastSegment rp with
              | .error e => .error e
              | .ok nm => .ok (false, JValue.str nm)
          | .ok false =>
            match pyInKey "type" s with
            | .error e => .error e
            | .ok true =>
              match getItem s "type" with
              | .error e => .error e
              | .ok nm =>
                match arrayPrimCheck s nm with
                | .error e => .error e
                | .ok _ => .ok (false, nm)
            | .ok false => .ok (false, JValue.str "Unknown")
    else .ok (false, JValue.str "Unknown")

/-- The list comprehension of promote's list branch:
with j ranging over the payload list in order, factory(client, j) for every
j that is not None; the first constructor failure propagates. -/
def promoteList (k : Kind) : List JValue → Except PyError (List BaseObj)
  | [] => .ok []
  | j :: rest =>
    match factoryFn k j with
    | .error e => .error e
    | .ok o =>
      match promoteList k rest with
      | .error e => .error e
      | .ok os => .ok (o :: os)

/-- ari.model.promote: resolve the success schema for the received status,
analyze its shape, look up a constructor in CLASS_MAP, and then: 204 maps to
None; a registered list shape maps each non-None element of a list payload
through the constructor (a non-list payload is logged and maps to None); a
registered single shape maps a non-None payload through the constructor and
a None payload to None; with no registered constructor the raw payload is
returned unchanged (logged), None staying None. -/
def promote (resp : BravadoResponse) (spec : JValue) : Except PyError PyVal :=
  match resolveSuccessSchema (statusStr (statusOf resp)) spec with
  | .error e => .error e
  | .ok sch? =>
    match analyzeShape sch? with
    | .error e => .error e
    | .ok (is_list, nameV) =>
      if statusOf resp = some 204 then .ok (.json .null)
      else
        match classMap nameV with
        | some k =>
          if is_list then
            match dataOf resp with
            | .arr items =>
              match promoteList k (items.filter (fun j => !j.isNull)) with
              | .ok os => .ok (.list os)
              | .error e => .error e
            | _ => .ok (.json .null)
          else
            if (dataOf resp).isNull then .ok (.json .null)
            else
              match factoryFn k (dataOf resp) with
              | .ok o => .ok (.obj o)
              | .error e => .error e
        | none =>
          if !(dataOf resp).isNull then .ok (.json (dataOf resp))
          else .ok (.json JValue.null)

/-- Python dict assignment base[k] = v on an association list: overwrite the
(unique) existing binding in place, else append. -/
def setKeyOrAppend : List (String × JValue) → String → JValue → List (String × JValue)
  | [], k, v => [(k, v)]
  | (k0, v0) :: rest, k, v =>
    if k0 = k then (k0, v) :: rest else (k0, v0) :: setKeyOrAppend rest k v

/-- Python base.update(upd): assign every binding of upd into base, in
upd's order. -/
def dictUpdate (base : List (String × JValue)) : List (String × JValue) → List (String × JValue)
  | [] => base
  | (k, v) :: rest => dictUpdate (setKeyOrAppend base k v) rest

/-- Parameter enrichment in BaseObject.__getattr__'s enrich_operation
(model.py): kwargs.update(self.id_generator.get_params(self.json)) — the
caller-supplied parameters updated with the identity-derived ones before the
request is issued. -/
def enrichOperationParams (k : Kind) (selfJson : JValue) (kwargs : List (String × JValue)) :
    Except PyError (List (String × JValue)) :=
  match getIdParams k selfJson with
  | .error e => .error e
  | .ok idParams => .ok (dictUpdate kwargs idParams)

/-- One property's match test in Client.on_object_event (client.py):
v.get('type') == model_id or (v.get('$ref') and
v.get('$ref').endswith('/' + model_id)), with Python short circuit and
truthiness; .get on a non-dict raises AttributeError, .endswith on a
non-string raises AttributeError. -/
def fieldMatches (model_id : String) (v : JValue) : Except PyError Bool :=
  match dictGet v "type" with
  | .error e => .error e
  | .ok (some (.str s)) =>
    if s = model_id then .ok true
    else
      match dictGet v "$ref" with
      | .error e => .error e
      | .ok none => .ok false
      | .ok (some r) =>
        if jTruthy r then
          match r with
          | .str rs => .ok (pyEndsWith rs ("/" ++ model_id))
          | _ => .error .attributeError
        else .ok false
  | .ok _ =>
    match dictGet v "$ref" with
    | .error e => .error e
    | .ok none => .ok false
    | .ok (some r) =>
      if jTruthy r then
        match r with
        | .str rs => .ok (pyEndsWith rs ("/" ++ model_id))
        | _ => .error .attributeError
      else .ok false

/-- The obj_fields list comprehension of Client.on_object_event: the names
of the event model's properties whose declared type matches model_id, in
declaration order. -/
def objFieldsLoop (model_id : String) : List (String × JValue) → Except PyError (List String)
  | [] => .ok []
  | (k, v) :: rest =>
    match fieldMatches model_id v with
    | .error e => .error e
    | .ok b =>
      match objFieldsLoop model_id rest with
      | .error e => .error e
      | .ok tail => .ok (if b then k :: tail else tail)

/-- obj_fields from an event model spec:
event_model_spec.get('properties', {}).items() filtered by fieldMatches;
.items() on a non-dict properties value raises AttributeError. -/
def computeObjFields (model_id : String) (spec : JValue) : Except PyError (List String) :=
  match dictGetD spec "properties" (.obj []) with
  | .error e => .error e
  | .ok (.obj fs) => objFieldsLoop model_id fs
  | .ok _ => .error .attributeError

/-- The value handed to the subscriber's callback by extract_objects:
None, a single promoted object, or a field-name-to-object mapping. -/
inductive Extracted where
  | none
  | single (o : BaseObj)
  | mapping (m : List (String × BaseObj))

/-- The dict comprehension in extract_objects (client.py):
obj = with field name f ranging over obj_fields in order, an entry
f maps-to factory_fn(self, event[f]) whenever event.get(f) is truthy. -/
def extractLoop (k : Kind) : List String → JValue → Except PyError (List (String × BaseObj))
  | [], _ => .ok []
  | f :: rest, ev =>
    match dictGet ev f with
    | .error e => .error e
    | .ok v? =>
      match v? with
      | some v =>
        if jTruthy v then
          match factoryFn k v with
          | .error e => .error e
          | .ok o =>
            match extractLoop k rest ev with
            | .error e => .error e
            | .ok tail => .ok ((f, o) :: tail)
        else extractLoop k rest ev
      | none => extractLoop k rest ev

/-- extract_objects in Client.on_object_event: build the field-to-object
dict, then unwrap it to the bare object when the schema declares exactly one
field of the kind, or replace an empty dict by None. -/
def extract_objects (k : Kind) (obj_fields : List String) (event : JValue) :
    Except PyError Extracted :=
  match extractLoop k obj_fields event with
  | .error e => .error e
  | .ok pairs =>
    if obj_fields.length = 1 then
      match pairs with
      | p :: _ => .ok (.single p.2)
      | [] => .ok .none
    else
      match pairs with
      | [] => .ok .none
      | ps => .ok (.mapping ps)

/-- fn_filter in BaseObject.on_event (model.py), counting invocations of the
subscriber's callback fn: for a dict of objects, fn runs once when self.id
is among the mapped objects' ids (Python ==); for a single object, once when
self.id equals its id; for None (no declared field present in the event
instance) the attribute access objects.id raises AttributeError before fn
can run. -/
def fnFilterCount (selfId : JValue) : Extracted → Except PyError Nat
  | .mapping m => .ok (if (m.map (fun p => p.2.id)).any (fun i => JValue.beq selfId i) then 1 else 0)
  | .single o => .ok (if JValue.beq selfId o.id then 1 else 0)
  | .none => .error .attributeError

/-- One dispatch of an object event to a BaseObject.on_event subscription:
extract_objects feeds fn_filter, which decides whether the subscriber's
callback runs.  The result is the number of callback invocations for this
event. -/
def objectEventDispatch (k : Kind) (obj_fields : List String) (selfId : JValue)
    (event : JValue) : Except PyError Nat :=
  match extract_objects k obj_fields event with
  | .error e => .error e
  | .ok ex => fnFilterCount selfId ex


/-- A listener registration tuple (event_cb, args, kwargs) as stored in
Client.event_listeners.  The callback and bound argument values are abstract
types: Python functions compare by identity and bound tuples structurally,
both modelled by decidable equality on the abstract carriers. -/
structure Listener (α β : Type) where
  cb : α
  args : List β
  kwargs : List (String × β)
deriving DecidableEq

/-- The Client.event_listeners dict: event-type name to ordered listener
registrations, in key insertion order. -/
abbrev ListenerMap (α β : Type) := List (String × List (Listener α β))

/-- Python list.remove(x): drop the first element that equals x (no-op shape
for an absent element is never used by the sources, which guard with "in"). -/
def removeFirst {γ : Type} [DecidableEq γ] : List γ → γ → List γ
  | [], _ => []
  | x :: rest, y => if x = y then rest else x :: removeFirst rest y

/-- Key membership in the listener dict. -/
def containsKey {γ : Type} (lm : List (String × γ)) (t : String) : Bool :=
  lm.any (fun kv => kv.1 == t)

/-- Python event_listeners.get(t, []). -/
def lookupD {α β : Type} (lm : ListenerMap α β) (t : String) : List (Listener α β) :=
  (lookupFirst lm t).getD []

/-- Overwrite the (unique) binding of an existing key; identity when the key
is absent (callers establish presence first, mirroring in-place mutation of
the listener list obtained from the dict). -/
def setKeyFirst {γ : Type} : List (String × γ) → String → γ → List (String × γ)
  | [], _, _ => []
  | (k, v) :: rest, key, nv =>
    if k = key then (k, nv) :: rest else (k, v) :: setKeyFirst rest key nv

/-- The dedup loop of Client.on_event: for cb in listeners: if event_cb ==
cb[0]: listeners.remove(cb).  Python's for statement walks the list by index
while remove shortens it in place, so a removal skips the element that
slides into the removed slot; the index-based recursion reproduces that. -/
def dedupLoop {α β : Type} [DecidableEq α] [DecidableEq β] (cb : α)
    (l : List (Listener α β)) (i : Nat) : List (Listener α β) :=
  if h : i < l.length then
    if (l.get ⟨i, h⟩).cb = cb then
      dedupLoop cb (removeFirst l (l.get ⟨i, h⟩)) (i + 1)
    else
      dedupLoop cb l (i + 1)
  else l
termination_by l.length - i
decreasing_by
  all_goals simp_wf
  · have key : ∀ (m : List (Listener α β)) (y : Listener α β), y ∈ m →
        (removeFirst m y).length + 1 = m.length := by
      intro m
      induction m with
      | nil => intro y hy; cases hy
      | cons a rest ih =>
        intro y hy
        by_cases hay : a = y
        · simp [removeFirst, hay]
        · rcases List.mem_cons.mp hy with h1 | h2
          · exact absurd h1.symm hay
          · simp [removeFirst, hay, ih y h2]
    have hkey := key l (l.get ⟨i, h⟩) (List.get_mem l i h)
    simp only [List.get_eq_getElem] at hkey
    omega
  · omega

/-- The capability captured by the EventUnsubscriber closure returned by
Client.on_event: the event type and the exact registration tuple. -/
structure Unsub (α β : Type) where
  eventType : String
  cbObj : Listener α β
deriving DecidableEq

/-- Client.on_event: setdefault the type's listener list, remove any
existing registration whose callback equals event_cb (the remove-during-
iteration loop of the source), append the new (event_cb, args, kwargs)
tuple, and hand back the unsubscriber bound to it. -/
def on_event {α β : Type} [DecidableEq α] [DecidableEq β] (lm : ListenerMap α β)
    (event_type : String) (event_cb : α) (args : List β) (kwargs : List (String × β)) :
    ListenerMap α β × Unsub α β :=
  let lm1 := if containsKey lm event_type then lm else lm ++ [(event_type, [])]
  let cur := lookupD lm1 event_type
  let cur1 := dedupLoop event_cb cur 0
  let callback_obj : Listener α β := ⟨event_cb, args, kwargs⟩
  (setKeyFirst lm1 event_type (cur1 ++ [callback_obj]), ⟨event_type, callback_obj⟩)

/-- EventUnsubscriber.close: if callback_obj in event_listeners[event_type]:
remove it.  The dict subscription raises KeyError when the type key is
absent (never the case for unsubscribers produced by on_event, since keys
are never deleted); removal of an absent tuple is a no-op. -/
def unsubClose {α β : Type} [DecidableEq α] [DecidableEq β] (lm : ListenerMap α β)
    (u : Unsub α β) : Except PyError (ListenerMap α β) :=
  match lookupFirst lm u.eventType with
  | none => .error .keyError
  | some ls =>
    if u.cbObj ∈ ls then .ok (setKeyFirst lm u.eventType (removeFirst ls u.cbObj))
    else .ok lm

/-- What a callback invocation does, as observed by the dispatcher: return
normally, raise, or call some unsubscriber's close() and then return.  This
is the effect language for the listener behaviours the verified claims
quantify over. -/
inductive CbAct (α β : Type) where
  | ret
  | raise (e : PyError)
  | close (u : Unsub α β)

/-- Observable events of the receive loop: a callback invocation
callback(msg, *args, **kwargs), a call of the client's exception handler,
and the log-and-skip of an invalid event. -/
inductive TraceEv (α β : Type) where
  | called (l : Listener α β) (msg : JValue)
  | handled (e : PyError)
  | invalidLogged

/-- The mutable state the receive loop works on, plus the trace of its
observable actions. -/
structure DispatchState (α β : Type) where
  event_listeners : ListenerMap α β
  trace : List (TraceEv α β)

/-- The inner listener loop of Client.__run: invoke each snapshotted
listener under try/except, routing a raised exception (including a KeyError
out of an unsubscriber's close) to the client's exception handler and
continuing with the next listener.  The snapshot is fixed; the live map
mutates only through close() calls. -/
def invokeListeners {α β : Type} [DecidableEq α] [DecidableEq β]
    (beh : α → JValue → List β → List (String × β) → CbAct α β) (msg : JValue) :
    List (Listener α β) → ListenerMap α β → List (TraceEv α β) →
    ListenerMap α β × List (TraceEv α β)
  | [], lm, tr => (lm, tr)
  | l :: rest, lm, tr =>
    match beh l.cb msg l.args l.kwargs with
    | .ret => invokeListeners beh msg rest lm (tr ++ [.called l msg])
    | .raise e => invokeListeners beh msg rest lm (tr ++ [.called l msg, .handled e])
    | .close u =>
      match unsubClose lm u with
      | .ok lm2 => invokeListeners beh msg rest lm2 (tr ++ [.called l msg])
      | .error e => invokeListeners beh msg rest lm (tr ++ [.called l msg, .handled e])

/-- Test from Client.__run: isinstance(msg_json, dict) and 'type' in
msg_json. -/
def isEventDict : JValue → Bool
  | .obj fs => fs.any (fun kv => kv.1 == "type")
  | _ => false

/-- The dict key msg_json['type'] as used against event_listeners: on_event
registers under string keys, so a non-string type value matches no entry. -/
def typeKey : JValue → Option String
  | .obj fs =>
    match lookupFirst fs "type" with
    | some (.str s) => some s
    | _ => none
  | _ => none

/-- One loop-body iteration of Client.__run after a successful decode: an
invalid event (not a dict, or no type field) is logged and skipped;
otherwise the type's listeners are snapshotted with list(...) and invoked. -/
def processMsg {α β : Type} [DecidableEq α] [DecidableEq β]
    (beh : α → JValue → List β → List (String × β) → CbAct α β)
    (st : DispatchState α β) (v : JValue) : DispatchState α β :=
  if isEventDict v then
    let snapshot :=
      match typeKey v with
      | some t => lookupD st.event_listeners t
      | none => []
    let r := invokeListeners beh v snapshot st.event_listeners st.trace
    ⟨r.1, r.2⟩
  else ⟨st.event_listeners, st.trace ++ [TraceEv.invalidLogged]⟩

/-- A text frame received from the WebSocket, abstracted by its json.loads
outcome: the decoded value, or undecodable text.  The JSON parser itself is
the external json module. -/
inductive WireMsg where
  | decodable (v : JValue)
  | undecodable

/-- json.loads on a received frame. -/
def jsonLoads : WireMsg → Except PyError JValue
  | .decodable v => .ok v
  | .undecodable => .error .jsonDecodeError

/-- The message drain loop of Client.__run over a finite stream of frames
(ws.recv until the None sentinel).  json.loads runs outside any try/except:
a decode failure propagates out of the loop immediately, leaving the state
as already mutated and the remaining frames unprocessed; the second
component reports such an escaped exception. -/
def runLoop {α β : Type} [DecidableEq α] [DecidableEq β]
    (beh : α → JValue → List β → List (String × β) → CbAct α β) :
    List WireMsg → DispatchState α β → DispatchState α β × Option PyError
  | [], st => (st, none)
  | m :: rest, st =>
    match jsonLoads m with
    | .error e => (st, some e)
    | .ok v => runLoop beh rest (processMsg beh st v)

/-- The part of the Client state that on_object_event consults: the
event-model index built at construction, and the listener map. -/
structure ClientState (α β : Type) where
  event_models : List (String × JValue)
  event_listeners : ListenerMap α β

/-- Client.on_object_event up to its on_event registration: look up the
event model (a missing or falsy spec raises ValueError), compute the fields
of the requested kind (an empty list raises ValueError), and only then
register the extract_objects wrapper — here the abstract callback value
extractCb — via on_event.  Both failures therefore occur before any
mutation of the listener map. -/
def on_object_event {α β : Type} [DecidableEq α] [DecidableEq β] (st : ClientState α β)
    (event_type : String) (extractCb : α) (model_id : String)
    (args : List β) (kwargs : List (String × β)) :
    Except PyError (ClientState α β × Unsub α β) :=
  match lookupFirst st.event_models event_type with
  | none => .error .valueError
  | some ms =>
    if jTruthy ms then
      match computeObjFields model_id ms with
      | .error e => .error e
      | .ok [] => .error .valueError
      | .ok (_ :: _) =>
        let r := on_event st.event_listeners event_type extractCb args kwargs
        .ok (⟨st.event_models, r.1⟩, r.2)
    else .error .valueError

/-- Projection of a trace event to the callback invocation it records. -/
def calledOf {α β : Type} : TraceEv α β → Option (Listener α β × JValue)
  | .called l m => some (l, m)
  | _ => none

/-- Whether a trace event is an invocation of the given registration. -/
def isCalledL {α β : Type} [DecidableEq α] [DecidableEq β] (l : Listener α β) :
    TraceEv α β → Bool
  | .called l2 _ => decide (l2 = l)
  | _ => false

/-- The behaviour, in the dispatcher's effect language, of the composed
extract_objects / fn_filter wrapper that BaseObject.on_event registers:
invoking it either runs to completion or raises whatever the extraction and
the identity filter raise. -/
def objEventBeh (k : Kind) (fields : List String) (selfId : JValue) :
    Unit → JValue → List Unit → List (String × Unit) → CbAct Unit Unit :=
  fun _ ev _ _ =>
    match objectEventDispatch k fields selfId ev with
    | .ok _ => .ret
    | .error e => .raise e

/-- Fixture: the registration tuple with callback identity n and no bound
arguments, over Nat carriers. -/
def lnr (n : Nat) : Listener Nat Nat := ⟨n, [], []⟩

/-- Fixture: an event message of type ev. -/
def msgEv : JValue := .obj [("type", .str "ev"), ("data", .num 1)]

/-- Fixture: a second event message of type ev. -/
def msgEv3 : JValue := .obj [("type", .str "ev"), ("data", .num 3)]

/-- Fixture: a listener map with callbacks 0, 1, 2 registered for ev. -/
def lmEv : ListenerMap Nat Nat := [("ev", [lnr 0, lnr 1, lnr 2])]

/-- Fixture behaviour: callback 1 raises ValueError, the others return. -/
def behRaise : Nat → JValue → List Nat → List (String × Nat) → CbAct Nat Nat :=
  fun c _ _ _ => if c = 1 then .raise .valueError else .ret

/-- Fixture behaviour: callback 1 closes its own unsubscriber (the one
on_event would hand back for its registration under ev), the others
return. -/
def behSelfClose : Nat → JValue → List Nat → List (String × Nat) → CbAct Nat Nat :=
  fun c _ _ _ => if c = 1 then .close ⟨"ev", lnr 1⟩ else .ret

/-- Fixture behaviour: every callback returns normally. -/
def behRet : Nat → JValue → List Nat → List (String × Nat) → CbAct Nat Nat :=
  fun _ _ _ _ => .ret

/-- Fixture: a listener map with only callback 5 registered for ev. -/
def lmEv5 : ListenerMap Nat Nat := [("ev", [lnr 5])]

/- Helper lemmas about the association-list and listener-list operations. -/

theorem lookupFirst_append {κ β : Type} [DecidableEq κ] (l1 l2 : List (κ × β)) (k : κ) :
    lookupFirst (l1 ++ l2) k =
      match lookupFirst l1 k with
      | some v => some v
      | none => lookupFirst l2 k := by
  induction l1 with
  | nil => simp [lookupFirst]
  | cons a rest ih =>
    obtain ⟨ka, va⟩ := a
    by_cases hk : ka = k
    · simp [lookupFirst, hk]
    · simp only [List.cons_append, lookupFirst, if_neg hk]
      exact ih

theorem lookupFirst_none_of_containsKey_false {β : Type} {lm : List (String × β)} {t : String}
    (h : containsKey lm t = false) : lookupFirst lm t = none := by
  induction lm with
  | nil => rfl
  | cons a rest ih =>
    obtain ⟨ka, va⟩ := a
    simp only [containsKey, List.any_cons, Bool.or_eq_false_iff, beq_eq_false_iff_ne] at h
    simp only [lookupFirst, if_neg h.1]
    exact ih h.2

theorem containsKey_of_lookupFirst_some {β : Type} {lm : List (String × β)} {t : String}
    {v : β} (h : lookupFirst lm t = some v) : containsKey lm t = true := by
  by_cases hc : containsKey lm t
  · exact hc
  · rw [lookupFirst_none_of_containsKey_false (Bool.of_not_eq_true hc)] at h
    cases h

theorem lookupFirst_setKeyFirst_self {γ : Type} {lm : List (String × γ)} {t : String}
    (nv : γ) (h : containsKey lm t = true) :
    lookupFirst (setKeyFirst lm t nv) t = some nv := by
  induction lm with
  | nil => simp [containsKey] at h
  | cons a rest ih =>
    obtain ⟨ka, va⟩ := a
    by_cases hk : ka = t
    · simp [setKeyFirst, hk, lookupFirst]
    · simp only [containsKey, List.any_cons, Bool.or_eq_true, beq_iff_eq] at h
      rcases h with h | h
      · exact absurd h hk
      · simp only [setKeyFirst, if_neg hk, lookupFirst]
        exact ih h

theorem lookupFirst_setKeyFirst_other {γ : Type} {lm : List (String × γ)} {t t2 : String}
    (nv : γ) (h : t2 ≠ t) :
    lookupFirst (setKeyFirst lm t nv) t2 = lookupFirst lm t2 := by
  induction lm with
  | nil => rfl
  | cons a rest ih =>
    obtain ⟨ka, va⟩ := a
    by_cases hk : ka = t
    · subst hk
      have : ¬ ka = t2 := fun hh => h hh.symm
      simp [setKeyFirst, lookupFirst, this]
    · by_cases hk2 : ka = t2
      · simp [setKeyFirst, hk, lookupFirst, hk2, h]
      · simp only [setKeyFirst, if_neg hk, lookupFirst, if_neg hk2]
        exact ih

theorem mem_of_mem_removeFirst {γ : Type} [DecidableEq γ] {l : List γ} {x y : γ}
    (h : x ∈ removeFirst l y) : x ∈ l := by
  induction l with
  | nil => simp [removeFirst] at h
  | cons a rest ih =>
    by_cases hay : a = y
    · rw [removeFirst, if_pos hay] at h
      exact List.mem_cons_of_mem _ h
    · rw [removeFirst, if_neg hay] at h
      rcases List.mem_cons.mp h with h1 | h2
      · exact h1 ▸ List.mem_cons_self _ _
      · exact List.mem_cons_of_mem _ (ih h2)

theorem removeFirst_append_notMem {γ : Type} [DecidableEq γ] {l1 : List γ} {y : γ}
    (l2 : List γ) (h : y ∉ l1) : removeFirst (l1 ++ y :: l2) y = l1 ++ l2 := by
  induction l1 with
  | nil => simp [removeFirst]
  | cons a rest ih =>
    have hay : ¬ a = y := by
      intro hh
      subst hh
      exact h (List.mem_cons_self _ _)
    simp only [List.cons_append, removeFirst, if_neg hay, List.cons.injEq, true_and]
    exact ih (fun hm => h (List.mem_cons_of_mem _ hm))

theorem not_mem_removeFirst_self {γ : Type} [DecidableEq γ] {l : List γ} {y : γ}
    (h : l.countP (fun x => decide (x = y)) ≤ 1) : y ∉ removeFirst l y := by
  induction l with
  | nil => simp [removeFirst]
  | cons a rest ih =>
    by_cases hay : a = y
    · rw [removeFirst, if_pos hay]
      have hc : rest.countP (fun x => decide (x = y)) = 0 := by
        have hp : (fun x => decide (x = y)) a = true := by simp [hay]
        rw [List.countP_cons_of_pos _ rest hp] at h
        omega
      intro hm
      have := List.countP_eq_zero.mp hc y hm
      simp at this
    · rw [removeFirst, if_neg hay]
      intro hm
      rcases List.mem_cons.mp hm with h1 | h2
      · exact hay h1.symm
      · have hle : rest.countP (fun x => decide (x = y)) ≤ 1 := by
          exact le_trans (List.Sublist.countP_le _ (List.sublist_cons_self a rest)) h
        exact ih hle h2

theorem removeFirst_sublist {γ : Type} [DecidableEq γ] (l : List γ) (y : γ) :
    (removeFirst l y).Sublist l := by
  induction l with
  | nil => simp [removeFirst]
  | cons a rest ih =>
    by_cases hay : a = y
    · rw [removeFirst, if_pos hay]
      exact List.sublist_cons_self _ _
    · rw [removeFirst, if_neg hay]
      exact ih.cons₂ a

theorem dedupLoop_no_match {α β : Type} [DecidableEq α] [DecidableEq β] {cb : α}
    {l : List (Listener α β)}
    (h : l.countP (fun x => decide (x.cb = cb)) = 0) : ∀ i, dedupLoop cb l i = l := by
  suffices H : ∀ n i, l.length - i ≤ n → dedupLoop cb l i = l by
    intro i
    exact H (l.length - i) i le_rfl
  intro n
  induction n with
  | zero =>
    intro i hi
    rw [dedupLoop, dif_neg (by omega)]
  | succ n ih =>
    intro i hi
    rw [dedupLoop]
    by_cases hlt : i < l.length
    · rw [dif_pos hlt]
      have hp : ¬ (l.get ⟨i, hlt⟩).cb = cb := by
        have := List.countP_eq_zero.mp h (l.get ⟨i, hlt⟩) (List.get_mem l i hlt)
        simpa using this
      rw [if_neg hp]
      exact ih (i + 1) (by omega)
    · rw [dif_neg hlt]

theorem dedupLoop_spec {α β : Type} [DecidableEq α] [DecidableEq β] {cb : α} :
    ∀ (n : Nat) (l : List (Listener α β)) (i : Nat), l.length - i ≤ n →
      l.countP (fun x => decide (x.cb = cb)) ≤ 1 →
      (l.take i).countP (fun x => decide (x.cb = cb)) = 0 →
      dedupLoop cb l i = l.take i ++ (l.drop i).filter (fun x => !decide (x.cb = cb)) := by
  intro n
  induction n with
  | zero =>
    intro l i hn h1 h0
    have hge : l.length ≤ i := by omega
    rw [dedupLoop, dif_neg (by omega), List.take_of_length_le hge,
      List.drop_eq_nil_of_le hge]
    simp
  | succ n ih =>
    intro l i hn h1 h0
    by_cases hlt : i < l.length
    · rw [dedupLoop, dif_pos hlt]
      set x := l.get ⟨i, hlt⟩ with hxdef
      have hdrop : l.drop i = x :: l.drop (i + 1) := by
        rw [hxdef, List.get_eq_getElem]
        exact List.drop_eq_getElem_cons hlt
      have htd : l.take i ++ l.drop i = l := List.take_append_drop i l
      by_cases hp : x.cb = cb
      · rw [if_pos hp]
        have hxtake : x ∉ l.take i := by
          intro hmem
          have hcc := List.countP_eq_zero.mp h0 _ hmem
          simp only [decide_eq_true_eq] at hcc
          exact hcc hp
        have hrem : removeFirst l x = l.take i ++ l.drop (i + 1) := by
          conv_lhs => rw [← htd, hdrop]
          exact removeFirst_append_notMem _ hxtake
        have hdropcnt : (l.drop (i + 1)).countP (fun z => decide (z.cb = cb)) = 0 := by
          have hsplit := List.countP_append (fun z => decide (z.cb = cb)) (l.take i) (l.drop i)
          rw [htd] at hsplit
          rw [hdrop, List.countP_cons_of_pos _ _ (by simp [hp])] at hsplit
          omega
        have hcnt : (l.take i ++ l.drop (i + 1)).countP (fun z => decide (z.cb = cb)) = 0 := by
          rw [List.countP_append, h0, hdropcnt]
        rw [hrem, dedupLoop_no_match hcnt (i + 1), hdrop,
          List.filter_cons_of_neg (by simp [hp]),
          List.filter_eq_self.mpr (fun y hy => by
            have hyc := List.countP_eq_zero.mp hdropcnt y hy
            simpa using hyc)]
      · rw [if_neg hp]
        have htake1 : l.take (i + 1) = l.take i ++ [x] := by
          rw [List.take_succ, List.getElem?_eq_getElem hlt, hxdef, List.get_eq_getElem]
          rfl
        have htake0 : (l.take (i + 1)).countP (fun z => decide (z.cb = cb)) = 0 := by
          rw [htake1, List.countP_append, h0]
          simp [hp]
        have hgoal : l.take i ++ (l.drop i).filter (fun z => !decide (z.cb = cb)) =
            l.take (i + 1) ++ (l.drop (i + 1)).filter (fun z => !decide (z.cb = cb)) := by
          rw [hdrop, htake1, List.filter_cons_of_pos (by simp [hp]), List.append_assoc]
          rfl
        rw [hgoal]
        exact ih l (i + 1) (by omega) h1 htake0
    · rw [dedupLoop, dif_neg hlt]
      have hge : l.length ≤ i := by omega
      rw [List.take_of_length_le hge, List.drop_eq_nil_of_le hge]
      simp

theorem lookupFirst_eq_none_of_not_fst_mem {κ β : Type} [DecidableEq κ]
    {l : List (κ × β)} {k : κ} (h : k ∉ l.map Prod.fst) : lookupFirst l k = none := by
  induction l with
  | nil => rfl
  | cons a rest ih =>
    obtain ⟨ka, va⟩ := a
    simp only [List.map_cons, List.mem_cons] at h
    push_neg at h
    obtain ⟨h1, h2⟩ := h
    rw [lookupFirst, if_neg (fun hh => h1 hh.symm)]
    exact ih h2

theorem lookupFirst_setKeyOrAppend (b : List (String × JValue)) (k : String) (v : JValue)
    (key : String) :
    lookupFirst (setKeyOrAppend b k v) key =
      if k = key then some v else lookupFirst b key := by
  induction b with
  | nil => simp [setKeyOrAppend, lookupFirst]
  | cons a rest ih =>
    obtain ⟨k0, v0⟩ := a
    by_cases h0 : k0 = k
    · subst h0
      by_cases hk : k0 = key
      · simp [setKeyOrAppend, lookupFirst, hk]
      · simp [setKeyOrAppend, lookupFirst, hk]
    · simp only [setKeyOrAppend, if_neg h0, lookupFirst]
      by_cases hk : k0 = key
      · have hkk : ¬ k = key := by
          intro hh
          exact h0 (by rw [hk, hh])
        simp [hk, hkk]
      · simp [hk, ih]

theorem lookupFirst_dictUpdate (upd : List (String × JValue)) :
    ∀ (base : List (String × JValue)), (upd.map Prod.fst).Nodup → ∀ key,
      lookupFirst (dictUpdate base upd) key =
        match lookupFirst upd key with
        | some v => some v
        | none => lookupFirst base key := by
  induction upd with
  | nil =>
    intro base hnd key
    rfl
  | cons a rest ih =>
    obtain ⟨k1, v1⟩ := a
    intro base hnd key
    simp only [List.map_cons, List.nodup_cons] at hnd
    obtain ⟨hk1, hndr⟩ := hnd
    rw [dictUpdate, ih _ hndr key]
    by_cases hk : k1 = key
    · subst hk
      have hrest : lookupFirst rest k1 = none :=
        lookupFirst_eq_none_of_not_fst_mem hk1
    
      rw [hrest]
      simp [lookupFirst, lookupFirst_setKeyOrAppend]
    · cases hrk : lookupFirst rest key with
      | some v => simp [lookupFirst, hk, hrk]
      | none => simp [lookupFirst, hk, hrk, lookupFirst_setKeyOrAppend]

theorem getIdParams_keys_nodup {k : Kind} {j : JValue} {ps : List (String × JValue)}
    (h : getIdParams k j = .ok ps) : (ps.map Prod.fst).Nodup := by
  cases k <;> simp only [getIdParams] at h <;> (repeat' split at h) <;> (try cases h) <;> simp

theorem isNull_iff (v : JValue) : v.isNull = true ↔ v = .null := by
  cases v <;> simp [JValue.isNull]

theorem factoryFn_ok_id {k : Kind} {j : JValue} {o : BaseObj}
    (h : factoryFn k j = .ok o) : idAsStr k j = .ok o.id := by
  rw [factoryFn] at h
  split at h
  · next i heq =>
    cases h
    exact heq
  · next e heq => cases h

theorem promoteList_ok_of_all (k : Kind) (raws : List JValue)
    (h : ∀ r ∈ raws, ∃ o, factoryFn k r = .ok o) :
    ∃ os, promoteList k raws = .ok os ∧ os.length = raws.length ∧
      os.map (fun o => (Except.ok o.id : Except PyError JValue)) = raws.map (idAsStr k) := by
  induction raws with
  | nil => exact ⟨[], rfl, rfl, rfl⟩
  | cons r rest ih =>
    obtain ⟨o, ho⟩ := h r (List.mem_cons_self _ _)
    obtain ⟨os, hos, hlen, hmap⟩ := ih (fun r2 h2 => h r2 (List.mem_cons_of_mem _ h2))
    refine ⟨o :: os, ?_, by simp [hlen], ?_⟩
    · rw [promoteList, ho, hos]
    · simp [List.map_cons, factoryFn_ok_id ho, hmap]

/-- C9: for an instance-scoped operation on a domain object, the parameters
sent are the caller's kwargs updated with the object's identity-derived
parameters; for any name present in both, the identity-derived value takes
precedence, and names absent from the identity parameters keep the caller's
value. -/
theorem identity_params_precedence (k : Kind) (selfJson : JValue)
    (kwargs idParams : List (String × JValue))
    (hid : getIdParams k selfJson = .ok idParams) :
    enrichOperationParams k selfJson kwargs = .ok (dictUpdate kwargs idParams) ∧
    ∀ key,
      (∀ v, lookupFirst idParams key = some v →
        lookupFirst (dictUpdate kwargs idParams) key = some v) ∧
      (lookupFirst idParams key = none →
        lookupFirst (dictUpdate kwargs idParams) key = lookupFirst kwargs key) := by
  constructor
  · rw [enrichOperationParams, hid]
  · intro key
    have hnd := getIdParams_keys_nodup hid
    have hlk := lookupFirst_dictUpdate idParams kwargs hnd key
    constructor
    · intro v hv
      rw [hlk, hv]
    · intro hv
      rw [hlk, hv]

/-- C9 witness: a Channel object with id c1 enriching a caller kwargs dict
that also binds channelId; the identity-derived channelId c1 wins. -/
theorem identity_params_precedence_witness :
    getIdParams .channel (.obj [("id", .str "c1")]) = .ok [("channelId", .str "c1")] ∧
    (enrichOperationParams .channel (.obj [("id", .str "c1")])
        [("channelId", .str "zzz"), ("timeout", .num 5)] =
      .ok (dictUpdate [("channelId", .str "zzz"), ("timeout", .num 5)]
        [("channelId", .str "c1")]) ∧
    ∀ key,
      (∀ v, lookupFirst [(("channelId" : String), JValue.str "c1")] key = some v →
        lookupFirst (dictUpdate [("channelId", .str "zzz"), ("timeout", .num 5)]
          [("channelId", .str "c1")]) key = some v) ∧
      (lookupFirst [(("channelId" : String), JValue.str "c1")] key = none →
        lookupFirst (dictUpdate [("channelId", .str "zzz"), ("timeout", .num 5)]
          [("channelId", .str "c1")]) key =
          lookupFirst [("channelId", .str "zzz"), ("timeout", .num 5)] key)) :=
  ⟨rfl, identity_params_precedence .channel (.obj [("id", .str "c1")])
    [("channelId", .str "zzz"), ("timeout", .num 5)] [("channelId", .str "c1")] rfl⟩

/-- C8: on_object_event with an unknown event model, or with an event model
declaring zero fields of the requested kind, fails with ValueError at
registration time, before the listener map is touched. -/
theorem object_event_zero_fields_error {α β : Type} [DecidableEq α] [DecidableEq β]
    (st : ClientState α β) (event_type : String) (extractCb : α) (model_id : String)
    (args : List β) (kwargs : List (String × β))
    (h : lookupFirst st.event_models event_type = none ∨
         ∃ ms, lookupFirst st.event_models event_type = some ms ∧ jTruthy ms = true ∧
           computeObjFields model_id ms = .ok []) :
    on_object_event st event_type extractCb model_id args kwargs = .error .valueError := by
  rcases h with h | ⟨ms, h1, h2, h3⟩
  · simp only [on_object_event, h]
  · simp only [on_object_event, h1, h2, if_true, h3]

/-- C8 witness: an event model whose only property is a Channel reference
has zero Bridge fields, so registering a Bridge listener on it fails with
ValueError. -/
theorem object_event_zero_fields_error_witness :
    (∃ ms, lookupFirst
        ([("StasisStart", JValue.obj [("properties",
          .obj [("channel", .obj [("$ref", .str "#/definitions/Channel")])])])] :
          List (String × JValue)) "StasisStart" = some ms ∧
        jTruthy ms = true ∧ computeObjFields "Bridge" ms = .ok []) ∧
    on_object_event
      (⟨[("StasisStart", JValue.obj [("properties",
          .obj [("channel", .obj [("$ref", .str "#/definitions/Channel")])])])], []⟩ :
        ClientState Nat Nat) "StasisStart" 0 "Bridge" [] [] = .error .valueError :=
  ⟨⟨_, rfl, rfl, rfl⟩,
    object_event_zero_fields_error _ _ _ _ _ _ (Or.inr ⟨_, rfl, rfl, rfl⟩)⟩

/-- C7: for a domain object subscribed via on_event, and an event whose
extraction succeeds: when the extractor yields a single object, the
subscriber's callback runs exactly once iff that object's identity equals
the subscriber's (Python ==), and never otherwise; when it yields a
field-to-object mapping, the callback runs exactly once iff the
subscriber's identity appears among the mapped objects' identities, and
never otherwise. -/
theorem object_event_filtering (k : Kind) (obj_fields : List String) (selfId : JValue)
    (event : JValue) :
    (∀ o, extract_objects k obj_fields event = .ok (.single o) →
      (JValue.beq selfId o.id = true →
        objectEventDispatch k obj_fields selfId event = .ok 1) ∧
      (JValue.beq selfId o.id = false →
        objectEventDispatch k obj_fields selfId event = .ok 0)) ∧
    (∀ m, extract_objects k obj_fields event = .ok (.mapping m) →
      ((m.map (fun p => p.2.id)).any (fun i => JValue.beq selfId i) = true →
        objectEventDispatch k obj_fields selfId event = .ok 1) ∧
      ((m.map (fun p => p.2.id)).any (fun i => JValue.beq selfId i) = false →
        objectEventDispatch k obj_fields selfId event = .ok 0)) := by
  constructor
  · intro o hx
    constructor <;> intro hb <;> simp [objectEventDispatch, hx, fnFilterCount, hb]
  · intro m hx
    constructor <;> intro hb <;> simp [objectEventDispatch, hx, fnFilterCount, hb]

/-- C7 witness: a StasisStart-like event carrying channel c1 invokes the
subscriber with identity c1 exactly once. -/
theorem object_event_filtering_witness :
    extract_objects .channel ["channel"]
        (.obj [("type", .str "StasisStart"), ("channel", .obj [("id", .str "c1")])]) =
      .ok (.single ⟨.channel, .obj [("id", .str "c1")], .str "c1"⟩) ∧
    JValue.beq (.str "c1") (BaseObj.id ⟨.channel, .obj [("id", .str "c1")], .str "c1"⟩) = true ∧
    objectEventDispatch .channel ["channel"] (.str "c1")
        (.obj [("type", .str "StasisStart"), ("channel", .obj [("id", .str "c1")])]) = .ok 1 :=
  ⟨rfl, rfl,
    ((object_event_filtering .channel ["channel"] (.str "c1")
      (.obj [("type", .str "StasisStart"), ("channel", .obj [("id", .str "c1")])])).1
      ⟨.channel, .obj [("id", .str "c1")], .str "c1"⟩ rfl).1 rfl⟩

/-- C10: when none of the declared fields of the kind is present in a
matching event instance, the extractor hands None to the identity filter,
whose attribute access raises AttributeError instead of silently skipping;
under the dispatcher this exception is routed to the exception handler (the
subscriber's callback is never reached) and the loop goes on. -/
theorem extract_none_filter_error (k : Kind) (obj_fields : List String) (selfId : JValue)
    (event : JValue) (t : String) (args : List Unit) (kwargs : List (String × Unit))
    (tr : List (TraceEv Unit Unit))
    (hx : extract_objects k obj_fields event = .ok .none)
    (hm : isEventDict event = true) (ht : typeKey event = some t) :
    objectEventDispatch k obj_fields selfId event = .error .attributeError ∧
    processMsg (objEventBeh k obj_fields selfId)
        ⟨[(t, [⟨(), args, kwargs⟩])], tr⟩ event =
      ⟨[(t, [⟨(), args, kwargs⟩])],
        tr ++ [.called ⟨(), args, kwargs⟩ event, .handled .attributeError]⟩ := by
  have hd : objectEventDispatch k obj_fields selfId event = .error .attributeError := by
    simp [objectEventDispatch, hx, fnFilterCount]
  refine ⟨hd, ?_⟩
  simp [processMsg, hm, ht, lookupD, lookupFirst, invokeListeners, objEventBeh, hd]

/-- C10 witness: a StasisStart event with no channel field, dispatched to a
channel-object subscription with identity c1. -/
theorem extract_none_filter_error_witness :
    extract_objects .channel ["channel"] (.obj [("type", .str "StasisStart")]) = .ok .none ∧
    isEventDict (.obj [("type", .str "StasisStart")]) = true ∧
    typeKey (.obj [("type", .str "StasisStart")]) = some "StasisStart" ∧
    (objectEventDispatch .channel ["channel"] (.str "c1")
        (.obj [("type", .str "StasisStart")]) = .error .attributeError ∧
      processMsg (objEventBeh .channel ["channel"] (.str "c1"))
          ⟨[("StasisStart", [⟨(), [], []⟩])], []⟩ (.obj [("type", .str "StasisStart")]) =
        ⟨[("StasisStart", [⟨(), [], []⟩])],
          [] ++ [.called ⟨(), [], []⟩ (.obj [("type", .str "StasisStart")]),
            .handled .attributeError]⟩) :=
  ⟨rfl, rfl, rfl,
    extract_none_filter_error .channel ["channel"] (.str "c1")
      (.obj [("type", .str "StasisStart")]) "StasisStart" [] [] [] rfl rfl rfl⟩

/-- C6: for a response whose shape analysis names a kind with no registered
constructor, promote returns the raw payload unchanged and raises nothing;
no domain object is ever constructed for such a kind (the 204 no-content
path carries a None payload, which is likewise returned unchanged). -/
theorem promote_unmodeled_passthrough (resp : BravadoResponse) (spec : JValue)
    (sch? : Option JValue) (isl : Bool) (nm : JValue)
    (h1 : resolveSuccessSchema (statusStr (statusOf resp)) spec = .ok sch?)
    (h2 : analyzeShape sch? = .ok (isl, nm))
    (h3 : classMap nm = none)
    (h4 : statusOf resp = some 204 → dataOf resp = .null) :
    promote resp spec = .ok (.json (dataOf resp)) := by
  simp only [promote, h1, h2, h3]
  by_cases hs : statusOf resp = some 204
  · rw [if_pos hs, h4 hs]
  · rw [if_neg hs]
    by_cases hn : (dataOf resp).isNull = true
    · rw [isNull_iff] at hn
      simp [hn, JValue.isNull]
    · simp [hn]

/-- C6 witness: a 200 response with a shape referencing the unregistered
kind Thing passes its dict payload through untouched. -/
theorem promote_unmodeled_passthrough_witness :
    resolveSuccessSchema (statusStr (statusOf (.incoming 200 (.obj [("x", .num 5)]))))
        (.obj [("responses", .obj [("200", .obj [("schema",
          .obj [("$ref", .str "#/definitions/Thing")])])])]) =
      .ok (some (.obj [("$ref", .str "#/definitions/Thing")])) ∧
    analyzeShape (some (.obj [("$ref", .str "#/definitions/Thing")])) =
      .ok (false, .str "Thing") ∧
    classMap (.str "Thing") = none ∧
    promote (.incoming 200 (.obj [("x", .num 5)]))
        (.obj [("responses", .obj [("200", .obj [("schema",
          .obj [("$ref", .str "#/definitions/Thing")])])])]) =
      .ok (.json (dataOf (.incoming 200 (.obj [("x", .num 5)])))) :=
  ⟨rfl, rfl, rfl,
    promote_unmodeled_passthrough (.incoming 200 (.obj [("x", .num 5)]))
      (.obj [("responses", .obj [("200", .obj [("schema",
        .obj [("$ref", .str "#/definitions/Thing")])])])])
      (some (.obj [("$ref", .str "#/definitions/Thing")])) false (.str "Thing")
      rfl rfl rfl (by intro h; exact absurd h (by decide))⟩

/-- C5: for a response whose shape analysis yields a list of a registered
kind, a payload list of non-None records each accepted by the kind's
constructor promotes to a list of domain objects of the same length, in
order, where the i-th object's identity is exactly the identity the id
generator computes from the i-th raw record; in particular the empty list
promotes to the empty list. -/
theorem promote_list_roundtrip (resp : BravadoResponse) (spec : JValue)
    (sch? : Option JValue) (nm : JValue) (k : Kind) (raws : List JValue)
    (h1 : resolveSuccessSchema (statusStr (statusOf resp)) spec = .ok sch?)
    (h2 : analyzeShape sch? = .ok (true, nm))
    (h3 : classMap nm = some k)
    (h4 : ¬ statusOf resp = some 204)
    (h5 : dataOf resp = .arr raws)
    (h6 : ∀ r ∈ raws, r.isNull = false)
    (h7 : ∀ r ∈ raws, ∃ o, factoryFn k r = .ok o) :
    ∃ os, promote resp spec = .ok (.list os) ∧ os.length = raws.length ∧
      os.map (fun o => (Except.ok o.id : Except PyError JValue)) =
        raws.map (idAsStr k) := by
  have hfilter : raws.filter (fun j => !j.isNull) = raws :=
    List.filter_eq_self.mpr (fun a ha => by simp [h6 a ha])
  obtain ⟨os, hos, hlen, hmap⟩ := promoteList_ok_of_all k raws h7
  refine ⟨os, ?_, hlen, hmap⟩
  simp only [promote, h1, h2, h3, if_neg h4, if_true, h5, hfilter, hos]

/-- C5 witness: a 200 array-of-Channel response with payload
[{id: c1}, {id: c2}] promotes to two Channel objects in order with
identities c1 and c2 (the length and identity-map equations instantiate the
round trip at this input). -/
theorem promote_list_roundtrip_witness :
    resolveSuccessSchema
        (statusStr (statusOf (.incoming 200
          (.arr [.obj [("id", .str "c1")], .obj [("id", .str "c2")]]))))
        (.obj [("responses", .obj [("200", .obj [("schema",
          .obj [("type", .str "array"),
            ("items", .obj [("$ref", .str "#/definitions/Channel")])])])])]) =
      .ok (some (.obj [("type", .str "array"),
        ("items", .obj [("$ref", .str "#/definitions/Channel")])])) ∧
    analyzeShape (some (.obj [("type", .str "array"),
        ("items", .obj [("$ref", .str "#/definitions/Channel")])])) =
      .ok (true, .str "Channel") ∧
    classMap (.str "Channel") = some .channel ∧
    (∃ os,
      promote (.incoming 200 (.arr [.obj [("id", .str "c1")], .obj [("id", .str "c2")]]))
          (.obj [("responses", .obj [("200", .obj [("schema",
            .obj [("type", .str "array"),
              ("items", .obj [("$ref", .str "#/definitions/Channel")])])])])]) =
        .ok (.list os) ∧
      os.length = [JValue.obj [("id", .str "c1")], JValue.obj [("id", .str "c2")]].length ∧
      os.map (fun o => (Except.ok o.id : Except PyError JValue)) =
        [JValue.obj [("id", .str "c1")], JValue.obj [("id", .str "c2")]].map
          (idAsStr .channel)) :=
  ⟨rfl, rfl, rfl,
    promote_list_roundtrip
      (.incoming 200 (.arr [.obj [("id", .str "c1")], .obj [("id", .str "c2")]]))
      (.obj [("responses", .obj [("200", .obj [("schema",
        .obj [("type", .str "array"),
          ("items", .obj [("$ref", .str "#/definitions/Channel")])])])])])
      (some (.obj [("type", .str "array"),
        ("items", .obj [("$ref", .str "#/definitions/Channel")])]))
      (.str "Channel") .channel
      [.obj [("id", .str "c1")], .obj [("id", .str "c2")]]
      rfl rfl rfl (by decide) rfl
      (by
        intro r hr
        simp only [List.mem_cons, List.not_mem_nil, or_false] at hr
        rcases hr with rfl | rfl <;> rfl)
      (by
        intro r hr
        simp only [List.mem_cons, List.not_mem_nil, or_false] at hr
        rcases hr with rfl | rfl
        · exact ⟨⟨.channel, .obj [("id", .str "c1")], .str "c1"⟩, rfl⟩
        · exact ⟨⟨.channel, .obj [("id", .str "c2")], .str "c2"⟩, rfl⟩)⟩

/- Trace and state lemmas about the listener loop of the dispatcher. -/

theorem invoke_calledOf {α β : Type} [DecidableEq α] [DecidableEq β]
    (beh : α → JValue → List β → List (String × β) → CbAct α β) (msg : JValue) :
    ∀ (ls : List (Listener α β)) (lm : ListenerMap α β) (tr : List (TraceEv α β)),
      ((invokeListeners beh msg ls lm tr).2).filterMap calledOf =
        tr.filterMap calledOf ++ ls.map (fun x => (x, msg)) := by
  intro ls
  induction ls with
  | nil =>
    intro lm tr
    simp [invokeListeners]
  | cons l rest ih =>
    intro lm tr
    rw [invokeListeners]
    cases hb : beh l.cb msg l.args l.kwargs with
    | ret =>
      rw [ih, List.filterMap_append]
      simp [calledOf]
    | raise e =>
      rw [ih, List.filterMap_append]
      simp [calledOf]
    | close u =>
      cases hc : unsubClose lm u with
      | ok lm2 =>
        simp only [hc]
        rw [ih, List.filterMap_append]
        simp [calledOf]
      | error e =>
        simp only [hc]
        rw [ih, List.filterMap_append]
        simp [calledOf]

theorem invoke_countP_called {α β : Type} [DecidableEq α] [DecidableEq β]
    (beh : α → JValue → List β → List (String × β) → CbAct α β) (msg : JValue)
    (x : Listener α β) :
    ∀ (ls : List (Listener α β)) (lm : ListenerMap α β) (tr : List (TraceEv α β)),
      ((invokeListeners beh msg ls lm tr).2).countP (isCalledL x) =
        tr.countP (isCalledL x) + ls.countP (fun y => decide (y = x)) := by
  intro ls
  induction ls with
  | nil =>
    intro lm tr
    simp [invokeListeners]
  | cons l rest ih =>
    intro lm tr
    rw [invokeListeners]
    cases hb : beh l.cb msg l.args l.kwargs with
    | ret =>
      rw [ih, List.countP_append, List.countP_cons (fun y => decide (y = x)) l rest]
      by_cases hlx : l = x <;> simp [isCalledL, hlx] <;> omega
    | raise e =>
      rw [ih, List.countP_append, List.countP_cons (fun y => decide (y = x)) l rest]
      by_cases hlx : l = x <;> simp [isCalledL, hlx] <;> omega
    | close u =>
      cases hc : unsubClose lm u with
      | ok lm2 =>
        simp only [hc]
        rw [ih, List.countP_append, List.countP_cons (fun y => decide (y = x)) l rest]
        by_cases hlx : l = x <;> simp [isCalledL, hlx] <;> omega
      | error e =>
        simp only [hc]
        rw [ih, List.countP_append, List.countP_cons (fun y => decide (y = x)) l rest]
        by_cases hlx : l = x <;> simp [isCalledL, hlx] <;> omega

theorem invoke_trace_mono {α β : Type} [DecidableEq α] [DecidableEq β]
    (beh : α → JValue → List β → List (String × β) → CbAct α β) (msg : JValue) :
    ∀ (ls : List (Listener α β)) (lm : ListenerMap α β) (tr : List (TraceEv α β)),
      ∃ s, (invokeListeners beh msg ls lm tr).2 = tr ++ s := by
  intro ls
  induction ls with
  | nil =>
    intro lm tr
    exact ⟨[], by simp [invokeListeners]⟩
  | cons l rest ih =>
    intro lm tr
    rw [invokeListeners]
    cases hb : beh l.cb msg l.args l.kwargs with
    | ret =>
      obtain ⟨s, hs⟩ := ih lm (tr ++ [.called l msg])
      exact ⟨[.called l msg] ++ s, by rw [hs, List.append_assoc]⟩
    | raise e =>
      obtain ⟨s, hs⟩ := ih lm (tr ++ [.called l msg, .handled e])
      exact ⟨[.called l msg, .handled e] ++ s, by rw [hs, List.append_assoc]⟩
    | close u =>
      cases hc : unsubClose lm u with
      | ok lm2 =>
        obtain ⟨s, hs⟩ := ih lm2 (tr ++ [.called l msg])
        refine ⟨[.called l msg] ++ s, ?_⟩
        simp only [hc]
        rw [hs, List.append_assoc]
      | error e =>
        obtain ⟨s, hs⟩ := ih lm (tr ++ [.called l msg, .handled e])
        refine ⟨[.called l msg, .handled e] ++ s, ?_⟩
        simp only [hc]
        rw [hs, List.append_assoc]

theorem invoke_append {α β : Type} [DecidableEq α] [DecidableEq β]
    (beh : α → JValue → List β → List (String × β) → CbAct α β) (msg : JValue) :
    ∀ (xs ys : List (Listener α β)) (lm : ListenerMap α β) (tr : List (TraceEv α β)),
      invokeListeners beh msg (xs ++ ys) lm tr =
        invokeListeners beh msg ys (invokeListeners beh msg xs lm tr).1
          (invokeListeners beh msg xs lm tr).2 := by
  intro xs
  induction xs with
  | nil =>
    intro ys lm tr
    simp [invokeListeners]
  | cons l rest ih =>
    intro ys lm tr
    rw [List.cons_append, invokeListeners, invokeListeners]
    cases hb : beh l.cb msg l.args l.kwargs with
    | ret => exact ih ys lm (tr ++ [.called l msg])
    | raise e => exact ih ys lm (tr ++ [.called l msg, .handled e])
    | close u =>
      cases hc : unsubClose lm u with
      | ok lm2 =>
        simp only [hc]
        exact ih ys lm2 (tr ++ [.called l msg])
      | error e =>
        simp only [hc]
        exact ih ys lm (tr ++ [.called l msg, .handled e])

theorem lookupD_of_lookupFirst_some {α β : Type} {lm : ListenerMap α β} {t : String}
    {ls : List (Listener α β)} (h : lookupFirst lm t = some ls) : lookupD lm t = ls := by
  rw [lookupD, h]
  rfl

theorem unsubClose_sublist {α β : Type} [DecidableEq α] [DecidableEq β]
    {lm lm2 : ListenerMap α β} {u : Unsub α β} (h : unsubClose lm u = .ok lm2)
    (t2 : String) : (lookupD lm2 t2).Sublist (lookupD lm t2) := by
  rw [unsubClose] at h
  cases hlk : lookupFirst lm u.eventType with
  | none =>
    simp [hlk] at h
  | some ls =>
    simp only [hlk] at h
    by_cases hmem : u.cbObj ∈ ls
    · rw [if_pos hmem] at h
      cases h
      by_cases ht2 : t2 = u.eventType
      · subst ht2
        rw [lookupD_of_lookupFirst_some
          (lookupFirst_setKeyFirst_self _ (containsKey_of_lookupFirst_some hlk)),
          lookupD_of_lookupFirst_some hlk]
        exact removeFirst_sublist ls u.cbObj
      · rw [lookupD, lookupFirst_setKeyFirst_other _ ht2]
        exact List.Sublist.refl _
    · rw [if_neg hmem] at h
      cases h
      exact List.Sublist.refl _

theorem invoke_sublist {α β : Type} [DecidableEq α] [DecidableEq β]
    (beh : α → JValue → List β → List (String × β) → CbAct α β) (msg : JValue) :
    ∀ (ls : List (Listener α β)) (lm : ListenerMap α β) (tr : List (TraceEv α β))
      (t2 : String),
      (lookupD (invokeListeners beh msg ls lm tr).1 t2).Sublist (lookupD lm t2) := by
  intro ls
  induction ls with
  | nil =>
    intro lm tr t2
    simp [invokeListeners]
  | cons l rest ih =>
    intro lm tr t2
    rw [invokeListeners]
    cases hb : beh l.cb msg l.args l.kwargs with
    | ret => exact ih lm _ t2
    | raise e => exact ih lm _ t2
    | close u =>
      cases hc : unsubClose lm u with
      | ok lm2 =>
        simp only [hc]
        exact (ih lm2 _ t2).trans (unsubClose_sublist hc t2)
      | error e =>
        simp only [hc]
        exact ih lm _ t2

theorem invoke_not_mem {α β : Type} [DecidableEq α] [DecidableEq β]
    (beh : α → JValue → List β → List (String × β) → CbAct α β) (msg : JValue)
    {x : Listener α β} {lm : ListenerMap α β} {t2 : String}
    (h : x ∉ lookupD lm t2) (ls : List (Listener α β)) (tr : List (TraceEv α β)) :
    x ∉ lookupD (invokeListeners beh msg ls lm tr).1 t2 :=
  fun hm => h ((invoke_sublist beh msg ls lm tr t2).subset hm)

theorem processMsg_no_call {α β : Type} [DecidableEq α] [DecidableEq β]
    (beh : α → JValue → List β → List (String × β) → CbAct α β) {x : Listener α β}
    (lm : ListenerMap α β) (tr : List (TraceEv α β)) (v : JValue)
    (h : ∀ t2, x ∉ lookupD lm t2) :
    (∀ t2, x ∉ lookupD (processMsg beh ⟨lm, tr⟩ v).event_listeners t2) ∧
    ((processMsg beh ⟨lm, tr⟩ v).trace).countP (isCalledL x) =
      tr.countP (isCalledL x) := by
  by_cases hm : isEventDict v
  · cases hk : typeKey v with
    | none =>
      constructor
      · intro t2
        simp only [processMsg, hm, if_true, hk]
        exact h t2
      · simp only [processMsg, hm, if_true, hk]
        simp [invokeListeners]
    | some t =>
      have hcnt : (lookupD lm t).countP (fun y => decide (y = x)) = 0 :=
        List.countP_eq_zero.mpr (fun y hy => by
          simp only [decide_eq_true_eq]
          intro heq
          exact h t (heq ▸ hy))
      constructor
      · intro t2
        simp only [processMsg, hm, if_true, hk]
        exact invoke_not_mem beh v (h t2) _ tr
      · simp only [processMsg, hm, if_true, hk]
        rw [invoke_countP_called, hcnt]
        omega
  · constructor
    · intro t2
      simp only [processMsg, hm, if_false]
      exact h t2
    · simp only [processMsg, hm, if_false]
      simp [List.countP_append, isCalledL]

theorem runLoop_no_more_calls {α β : Type} [DecidableEq α] [DecidableEq β]
    (beh : α → JValue → List β → List (String × β) → CbAct α β) (x : Listener α β) :
    ∀ (msgs : List WireMsg) (lm : ListenerMap α β) (tr : List (TraceEv α β)),
      (∀ t2, x ∉ lookupD lm t2) →
      ((runLoop beh msgs ⟨lm, tr⟩).1.trace).countP (isCalledL x) =
        tr.countP (isCalledL x) := by
  intro msgs
  induction msgs with
  | nil =>
    intro lm tr h
    rfl
  | cons m rest ih =>
    intro lm tr h
    cases m with
    | undecodable => rfl
    | decodable v =>
      obtain ⟨hmap, htr⟩ := processMsg_no_call beh lm tr v h
      have hst : processMsg beh ⟨lm, tr⟩ v =
          ⟨(processMsg beh ⟨lm, tr⟩ v).event_listeners, (processMsg beh ⟨lm, tr⟩ v).trace⟩ :=
        rfl
      show ((runLoop beh rest (processMsg beh ⟨lm, tr⟩ v)).1.trace).countP (isCalledL x) =
        tr.countP (isCalledL x)
      rw [hst, ih _ _ hmap, htr]

/-- C2: during dispatch of one message, a listener whose callback raises has
the exception routed to the client's exception handler, every listener of
the snapshot — in particular every one registered after it — is still
invoked for that message in snapshot order, and the receive loop proceeds
to the next frame. -/
theorem listener_exception_isolation {α β : Type} [DecidableEq α] [DecidableEq β]
    (beh : α → JValue → List β → List (String × β) → CbAct α β) (msg : JValue)
    (t : String) (pre post : List (Listener α β)) (l : Listener α β) (e : PyError)
    (lm : ListenerMap α β) (tr : List (TraceEv α β))
    (hm : isEventDict msg = true) (ht : typeKey msg = some t)
    (hsnap : lookupFirst lm t = some (pre ++ l :: post))
    (hbeh : beh l.cb msg l.args l.kwargs = .raise e) :
    ((processMsg beh ⟨lm, tr⟩ msg).trace).filterMap calledOf =
      tr.filterMap calledOf ++ (pre ++ l :: post).map (fun x => (x, msg)) ∧
    TraceEv.handled e ∈ (processMsg beh ⟨lm, tr⟩ msg).trace ∧
    ∀ (rest : List WireMsg) (st : DispatchState α β),
      runLoop beh (WireMsg.decodable msg :: rest) st =
        runLoop beh rest (processMsg beh st msg) := by
  have hpm : processMsg beh ⟨lm, tr⟩ msg =
      ⟨(invokeListeners beh msg (pre ++ l :: post) lm tr).1,
        (invokeListeners beh msg (pre ++ l :: post) lm tr).2⟩ := by
    simp [processMsg, hm, ht, lookupD, hsnap]
  refine ⟨?_, ?_, ?_⟩
  · rw [hpm]
    exact invoke_calledOf beh msg _ lm tr
  · rw [hpm]
    show TraceEv.handled e ∈ (invokeListeners beh msg (pre ++ l :: post) lm tr).2
    rw [invoke_append]
    rw [invokeListeners]
    simp only [hbeh]
    obtain ⟨s, hs⟩ := invoke_trace_mono beh msg post
      (invokeListeners beh msg pre lm tr).1
      ((invokeListeners beh msg pre lm tr).2 ++ [.called l msg, .handled e])
    rw [hs]
    simp
  · intro rest st
    rfl

/-- C2 witness: three listeners for type ev, the middle one raising
ValueError; all three are invoked in order, the handler is called, and the
loop moves on. -/
theorem listener_exception_isolation_witness :
    isEventDict msgEv = true ∧
    typeKey msgEv = some "ev" ∧
    lookupFirst lmEv "ev" = some ([lnr 0] ++ lnr 1 :: [lnr 2]) ∧
    behRaise (lnr 1).cb msgEv (lnr 1).args (lnr 1).kwargs = .raise .valueError ∧
    (((processMsg behRaise ⟨lmEv, []⟩ msgEv).trace).filterMap calledOf =
        ([] : List (TraceEv Nat Nat)).filterMap calledOf ++
          ([lnr 0] ++ lnr 1 :: [lnr 2]).map (fun x => (x, msgEv)) ∧
      TraceEv.handled .valueError ∈ (processMsg behRaise ⟨lmEv, []⟩ msgEv).trace ∧
      ∀ (rest : List WireMsg) (st : DispatchState Nat Nat),
        runLoop behRaise (WireMsg.decodable msgEv :: rest) st =
          runLoop behRaise rest (processMsg behRaise st msgEv)) :=
  ⟨rfl, rfl, rfl, rfl,
    listener_exception_isolation behRaise msgEv "ev" [lnr 0] [lnr 2] (lnr 1)
      .valueError lmEv [] rfl rfl rfl rfl⟩

/-- C3: the listener list for a message's type is snapshotted before any
callback runs: a listener that closes its own unsubscriber while handling
message M is still invoked for M, the other snapshotted listeners are all
still invoked for M in order, the registration is gone from the listener
map once M's dispatch ends, and no later message dispatched by the loop
ever invokes it again. -/
theorem unsubscribe_during_dispatch {α β : Type} [DecidableEq α] [DecidableEq β]
    (beh : α → JValue → List β → List (String × β) → CbAct α β) (msg : JValue)
    (t : String) (pre post : List (Listener α β)) (l : Listener α β)
    (lm : ListenerMap α β) (tr : List (TraceEv α β))
    (hm : isEventDict msg = true) (ht : typeKey msg = some t)
    (hsnap : lookupFirst lm t = some (pre ++ l :: post))
    (hbeh : beh l.cb msg l.args l.kwargs = .close ⟨t, l⟩)
    (hpre : l ∉ pre) (hpost : l ∉ post)
    (helse : ∀ t2, t2 ≠ t → l ∉ lookupD lm t2) :
    ((processMsg beh ⟨lm, tr⟩ msg).trace).filterMap calledOf =
      tr.filterMap calledOf ++ (pre ++ l :: post).map (fun x => (x, msg)) ∧
    (∀ t2, l ∉ lookupD (processMsg beh ⟨lm, tr⟩ msg).event_listeners t2) ∧
    ∀ msgs,
      ((runLoop beh msgs (processMsg beh ⟨lm, tr⟩ msg)).1.trace).countP (isCalledL l) =
        ((processMsg beh ⟨lm, tr⟩ msg).trace).countP (isCalledL l) := by
  have hpm : processMsg beh ⟨lm, tr⟩ msg =
      ⟨(invokeListeners beh msg (pre ++ l :: post) lm tr).1,
        (invokeListeners beh msg (pre ++ l :: post) lm tr).2⟩ := by
    simp [processMsg, hm, ht, lookupD, hsnap]
  have hsub1 : ∀ t2,
      (lookupD (invokeListeners beh msg pre lm tr).1 t2).Sublist (lookupD lm t2) :=
    fun t2 => invoke_sublist beh msg pre lm tr t2
  have hnot1 : ∀ t2, t2 ≠ t → l ∉ lookupD (invokeListeners beh msg pre lm tr).1 t2 :=
    fun t2 ht2 hmem => (helse t2 ht2) ((hsub1 t2).subset hmem)
  have h0 : (lookupD lm t).countP (fun y => decide (y = l)) = 1 := by
    rw [lookupD_of_lookupFirst_some hsnap, List.countP_append,
      List.countP_cons_of_pos _ _ (by simp),
      List.countP_eq_zero.mpr (fun y hy => by
        simp only [decide_eq_true_eq]
        intro heq
        exact hpre (heq ▸ hy)),
      List.countP_eq_zero.mpr (fun y hy => by
        simp only [decide_eq_true_eq]
        intro heq
        exact hpost (heq ▸ hy))]
  have hcount1 :
      (lookupD (invokeListeners beh msg pre lm tr).1 t).countP
        (fun y => decide (y = l)) ≤ 1 := by
    have := List.Sublist.countP_le (fun y => decide (y = l)) (hsub1 t)
    omega
  have hmain : ∀ t2, l ∉ lookupD (processMsg beh ⟨lm, tr⟩ msg).event_listeners t2 := by
    rw [hpm]
    show ∀ t2, l ∉ lookupD (invokeListeners beh msg (pre ++ l :: post) lm tr).1 t2
    rw [invoke_append, invokeListeners]
    simp only [hbeh]
    cases hc : unsubClose (invokeListeners beh msg pre lm tr).1 ⟨t, l⟩ with
    | ok lm2 =>
      simp only [hc]
      have hafter : ∀ t2, l ∉ lookupD lm2 t2 := by
        intro t2
        simp only [unsubClose] at hc
        cases hlk : lookupFirst (invokeListeners beh msg pre lm tr).1 t with
        | none => simp [hlk] at hc
        | some ls1 =>
          simp only [hlk] at hc
          by_cases hmem : l ∈ ls1
          · rw [if_pos hmem] at hc
            cases hc
            by_cases ht2 : t2 = t
            · subst ht2
              rw [lookupD_of_lookupFirst_some
                (lookupFirst_setKeyFirst_self _ (containsKey_of_lookupFirst_some hlk))]
              apply not_mem_removeFirst_self
              rw [lookupD_of_lookupFirst_some hlk] at hcount1
              exact hcount1
            · rw [lookupD, lookupFirst_setKeyFirst_other _ ht2]
              exact hnot1 t2 ht2
          · rw [if_neg hmem] at hc
            cases hc
            by_cases ht2 : t2 = t
            · subst ht2
              rw [lookupD_of_lookupFirst_some hlk]
              exact hmem
            · exact hnot1 t2 ht2
      exact fun t2 => invoke_not_mem beh msg (hafter t2) post _
    | error e =>
      simp only [hc]
      have hafter : ∀ t2, l ∉ lookupD (invokeListeners beh msg pre lm tr).1 t2 := by
        intro t2
        by_cases ht2 : t2 = t
        · subst ht2
          simp only [unsubClose] at hc
          cases hlk : lookupFirst (invokeListeners beh msg pre lm tr).1 t2 with
          | none =>
            rw [lookupD, hlk]
            simp
          | some ls1 =>
            simp only [hlk] at hc
            split at hc <;> simp at hc
        · exact hnot1 t2 ht2
      exact fun t2 => invoke_not_mem beh msg (hafter t2) post _
  refine ⟨?_, hmain, ?_⟩
  · rw [hpm]
    exact invoke_calledOf beh msg _ lm tr
  · intro msgs
    exact runLoop_no_more_calls beh l msgs _ _ hmain

/-- C3 witness: callback 1 closes its own unsubscriber while handling an ev
message; it and its neighbours are all invoked for that message, it is
deregistered afterwards, and no continuation of the loop calls it again. -/
theorem unsubscribe_during_dispatch_witness :
    isEventDict msgEv = true ∧
    typeKey msgEv = some "ev" ∧
    lookupFirst lmEv "ev" = some ([lnr 0] ++ lnr 1 :: [lnr 2]) ∧
    behSelfClose (lnr 1).cb msgEv (lnr 1).args (lnr 1).kwargs = .close ⟨"ev", lnr 1⟩ ∧
    lnr 1 ∉ [lnr 0] ∧
    lnr 1 ∉ [lnr 2] ∧
    (∀ t2, t2 ≠ "ev" → lnr 1 ∉ lookupD lmEv t2) ∧
    (((processMsg behSelfClose ⟨lmEv, []⟩ msgEv).trace).filterMap calledOf =
        ([] : List (TraceEv Nat Nat)).filterMap calledOf ++
          ([lnr 0] ++ lnr 1 :: [lnr 2]).map (fun x => (x, msgEv)) ∧
      (∀ t2, lnr 1 ∉ lookupD (processMsg behSelfClose ⟨lmEv, []⟩ msgEv).event_listeners t2) ∧
      ∀ msgs,
        ((runLoop behSelfClose msgs
            (processMsg behSelfClose ⟨lmEv, []⟩ msgEv)).1.trace).countP (isCalledL (lnr 1)) =
          ((processMsg behSelfClose ⟨lmEv, []⟩ msgEv).trace).countP (isCalledL (lnr 1))) :=
  ⟨rfl, rfl, rfl, rfl, by decide, by decide,
    fun t2 ht2 => by simp [lookupD, lmEv, lookupFirst, Ne.symm ht2],
    unsubscribe_during_dispatch behSelfClose msgEv "ev" [lnr 0] [lnr 2] (lnr 1)
      lmEv [] rfl rfl rfl rfl (by decide) (by decide)
      (fun t2 ht2 => by simp [lookupD, lmEv, lookupFirst, Ne.symm ht2])⟩

theorem on_event_lookup {α β : Type} [DecidableEq α] [DecidableEq β]
    (m : ListenerMap α β) (t : String) (cb : α) (aa : List β)
    (kk : List (String × β))
    (hc1 : (lookupD m t).countP (fun x => decide (x.cb = cb)) ≤ 1) :
    lookupD (on_event m t cb aa kk).1 t =
      (lookupD m t).filter (fun x => !decide (x.cb = cb)) ++ [⟨cb, aa, kk⟩] ∧
    ∀ t2, t2 ≠ t → lookupD (on_event m t cb aa kk).1 t2 = lookupD m t2 := by
  have hck : containsKey (if containsKey m t then m else m ++ [(t, [])]) t = true := by
    by_cases hc : containsKey m t
    · rw [if_pos hc]
      exact hc
    · rw [if_neg hc, containsKey, List.any_append]
      simp [containsKey]
  have hla : lookupD (if containsKey m t then m else m ++ [(t, [])]) t = lookupD m t := by
    by_cases hc : containsKey m t
    · rw [if_pos hc]
    · rw [if_neg hc, lookupD, lookupFirst_append,
        lookupFirst_none_of_containsKey_false (Bool.of_not_eq_true hc), lookupD,
        lookupFirst_none_of_containsKey_false (Bool.of_not_eq_true hc)]
      simp [lookupFirst]
  have hlother : ∀ t2, t2 ≠ t →
      lookupD (if containsKey m t then m else m ++ [(t, [])]) t2 = lookupD m t2 := by
    intro t2 ht2
    by_cases hc : containsKey m t
    · rw [if_pos hc]
    · rw [if_neg hc, lookupD, lookupFirst_append, lookupD]
      cases hm2 : lookupFirst m t2 with
      | some v => rfl
      | none =>
        simp [lookupFirst, Ne.symm ht2]
  have hded : dedupLoop cb (lookupD (if containsKey m t then m else m ++ [(t, [])]) t) 0 =
      (lookupD m t).filter (fun x => !decide (x.cb = cb)) := by
    rw [hla]
    have := dedupLoop_spec (lookupD m t).length (lookupD m t) 0 (by omega) hc1 (by simp)
    simpa using this
  constructor
  · show lookupD (setKeyFirst (if containsKey m t then m else m ++ [(t, [])]) t
      (dedupLoop cb (lookupD (if containsKey m t then m else m ++ [(t, [])]) t) 0 ++
        [⟨cb, aa, kk⟩])) t = _
    rw [lookupD_of_lookupFirst_some (lookupFirst_setKeyFirst_self _ hck), hded]
  · intro t2 ht2
    show lookupD (setKeyFirst (if containsKey m t then m else m ++ [(t, [])]) t
      (dedupLoop cb (lookupD (if containsKey m t then m else m ++ [(t, [])]) t) 0 ++
        [⟨cb, aa, kk⟩])) t2 = _
    rw [lookupD, lookupFirst_setKeyFirst_other _ ht2]
    exact hlother t2 ht2

/-- C4: subscribing the same callback under the same event type twice leaves
exactly one active registration for that callback, carrying the second
call's bound arguments; registrations of other callbacks under that type,
and all registrations under other types, are untouched. -/
theorem duplicate_subscribe_dedup {α β : Type} [DecidableEq α] [DecidableEq β]
    (lm : ListenerMap α β) (t : String) (cb : α) (a1 a2 : List β)
    (k1 k2 : List (String × β))
    (h0 : (lookupD lm t).countP (fun x => decide (x.cb = cb)) ≤ 1) :
    ((lookupD (on_event ((on_event lm t cb a1 k1).1) t cb a2 k2).1 t).countP
        (fun x => decide (x.cb = cb)) = 1) ∧
    (∀ x ∈ lookupD (on_event ((on_event lm t cb a1 k1).1) t cb a2 k2).1 t,
      x.cb = cb → x = ⟨cb, a2, k2⟩) ∧
    ((lookupD (on_event ((on_event lm t cb a1 k1).1) t cb a2 k2).1 t).filter
        (fun x => !decide (x.cb = cb)) =
      (lookupD lm t).filter (fun x => !decide (x.cb = cb))) ∧
    (∀ t2, t2 ≠ t →
      lookupD (on_event ((on_event lm t cb a1 k1).1) t cb a2 k2).1 t2 =
        lookupD lm t2) := by
  obtain ⟨hL1, hO1⟩ := on_event_lookup lm t cb a1 k1 h0
  have hF0 : ((lookupD lm t).filter (fun x => !decide (x.cb = cb))).countP
      (fun x => decide (x.cb = cb)) = 0 :=
    List.countP_eq_zero.mpr (fun y hy => by
      have hy2 := (List.mem_filter.mp hy).2
      simp only [Bool.not_eq_eq_eq_not, Bool.not_true, decide_eq_false_iff_not] at hy2
      simp [hy2])
  have hL1c : (lookupD ((on_event lm t cb a1 k1).1) t).countP
      (fun x => decide (x.cb = cb)) ≤ 1 := by
    rw [hL1, List.countP_append, hF0]
    simp
  obtain ⟨hL2, hO2⟩ := on_event_lookup ((on_event lm t cb a1 k1).1) t cb a2 k2 hL1c
  have hfilterL1 : (lookupD ((on_event lm t cb a1 k1).1) t).filter
      (fun x => !decide (x.cb = cb)) =
      (lookupD lm t).filter (fun x => !decide (x.cb = cb)) := by
    rw [hL1, List.filter_append, List.filter_cons_of_neg (by simp),
      List.filter_eq_self.mpr (fun y hy => (List.mem_filter.mp hy).2)]
    simp
  refine ⟨?_, ?_, ?_, ?_⟩
  · rw [hL2, List.countP_append, hfilterL1, hF0]
    simp
  · intro x hx hcb
    rw [hL2, hfilterL1] at hx
    rcases List.mem_append.mp hx with hx | hx
    · have hy2 := (List.mem_filter.mp hx).2
      simp only [Bool.not_eq_eq_eq_not, Bool.not_true, decide_eq_false_iff_not] at hy2
      exact absurd hcb hy2
    · simpa using hx
  · rw [hL2, List.filter_append, List.filter_cons_of_neg (by simp), hfilterL1,
      List.filter_eq_self.mpr (fun y hy => (List.mem_filter.mp hy).2)]
    simp
  · intro t2 ht2
    rw [hO2 t2 ht2, hO1 t2 ht2]

/-- C4 witness: callback 7 subscribed twice for ev (first with argument 1,
then with argument 2) over a map already holding callback 5; exactly one
registration of 7 remains, bound to argument 2, and callback 5's
registration is untouched. -/
theorem duplicate_subscribe_dedup_witness :
    ((lookupD lmEv5 "ev").countP (fun x => decide (x.cb = 7)) ≤ 1) ∧
    (((lookupD (on_event ((on_event lmEv5 "ev" 7 [1] []).1) "ev" 7 [2] []).1 "ev").countP
        (fun x => decide (x.cb = 7)) = 1) ∧
      (∀ x ∈ lookupD (on_event ((on_event lmEv5 "ev" 7 [1] []).1) "ev" 7 [2] []).1 "ev",
        x.cb = 7 → x = ⟨7, [2], []⟩) ∧
      ((lookupD (on_event ((on_event lmEv5 "ev" 7 [1] []).1) "ev" 7 [2] []).1 "ev").filter
          (fun x => !decide (x.cb = 7)) =
        (lookupD lmEv5 "ev").filter (fun x => !decide (x.cb = 7))) ∧
      (∀ t2, t2 ≠ "ev" →
        lookupD (on_event ((on_event lmEv5 "ev" 7 [1] []).1) "ev" 7 [2] []).1 t2 =
          lookupD lmEv5 t2)) :=
  ⟨by decide, duplicate_subscribe_dedup lmEv5 "ev" 7 [1] [2] [] [] (by decide)⟩

/-- C1 counterexample: with a listener registered for ev and the frame
sequence valid-ev, undecodable, valid-ev, the receive loop raises the
decode error out of the loop (json.loads in Client.__run is outside any
try/except) and the third frame is never dispatched — only the first valid
message reaches the listener, refuting delivery of both valid messages and
refuting that an undecodable message is merely logged and skipped. -/
theorem undecodable_message_raises_counterexample :
    runLoop behRet [.decodable msgEv, .undecodable, .decodable msgEv3] ⟨lmEv5, []⟩ =
      (⟨lmEv5, [.called (lnr 5) msgEv]⟩, some .jsonDecodeError) := rfl

/-- C1 (amended): a received message that decodes to JSON but is not an
object or lacks a type field is logged and skipped without raising, and the
valid messages around it are still delivered to the registered listener in
order; a message whose very text is not decodable as JSON, however, raises
out of the receive loop, so the valid message after it is not delivered. -/
theorem decode_failure_behaviour {α β : Type} [DecidableEq α] [DecidableEq β]
    (beh : α → JValue → List β → List (String × β) → CbAct α β) (t : String)
    (l : Listener α β) (v1 v2 u : JValue)
    (lm : ListenerMap α β) (tr : List (TraceEv α β))
    (hl : lookupFirst lm t = some [l])
    (hb : ∀ m, beh l.cb m l.args l.kwargs = .ret)
    (h1 : isEventDict v1 = true) (ht1 : typeKey v1 = some t)
    (h2 : isEventDict v2 = true) (ht2 : typeKey v2 = some t)
    (hu : isEventDict u = false) :
    runLoop beh [.decodable v1, .decodable u, .decodable v2] ⟨lm, tr⟩ =
      (⟨lm, tr ++ [.called l v1, .invalidLogged, .called l v2]⟩, none) ∧
    runLoop beh [.decodable v1, .undecodable, .decodable v2] ⟨lm, tr⟩ =
      (⟨lm, tr ++ [.called l v1]⟩, some .jsonDecodeError) := by
  have hp1 : ∀ tr0, processMsg beh ⟨lm, tr0⟩ v1 = ⟨lm, tr0 ++ [.called l v1]⟩ :=
    fun tr0 => by simp [processMsg, h1, ht1, lookupD, hl, invokeListeners, hb]
  have hp2 : ∀ tr0, processMsg beh ⟨lm, tr0⟩ v2 = ⟨lm, tr0 ++ [.called l v2]⟩ :=
    fun tr0 => by simp [processMsg, h2, ht2, lookupD, hl, invokeListeners, hb]
  have hpu : ∀ tr0, processMsg beh ⟨lm, tr0⟩ u = ⟨lm, tr0 ++ [.invalidLogged]⟩ :=
    fun tr0 => by simp [processMsg, hu]
  constructor
  · simp [runLoop, jsonLoads, hp1, hpu, hp2]
  · simp [runLoop, jsonLoads, hp1]

/-- C1 witness for the amended claim: listener 5 on ev; a non-object junk
frame between two ev messages is logged and both ev messages are delivered
in order, while an undecodable frame in the same position raises
JSONDecodeError out of the loop with only the first message delivered. -/
theorem decode_failure_behaviour_witness :
    lookupFirst lmEv5 "ev" = some [lnr 5] ∧
    (∀ m, behRet (lnr 5).cb m (lnr 5).args (lnr 5).kwargs = .ret) ∧
    isEventDict msgEv = true ∧
    typeKey msgEv = some "ev" ∧
    isEventDict msgEv3 = true ∧
    typeKey msgEv3 = some "ev" ∧
    isEventDict (.str "junk") = false ∧
    (runLoop behRet [.decodable msgEv, .decodable (.str "junk"), .decodable msgEv3]
        ⟨lmEv5, []⟩ =
      (⟨lmEv5, [] ++ [.called (lnr 5) msgEv, .invalidLogged, .called (lnr 5) msgEv3]⟩,
        none) ∧
    runLoop behRet [.decodable msgEv, .undecodable, .decodable msgEv3] ⟨lmEv5, []⟩ =
      (⟨lmEv5, [] ++ [.called (lnr 5) msgEv]⟩, some .jsonDecodeError)) :=
  ⟨rfl, fun _ => rfl, rfl, rfl, rfl, rfl, rfl,
    decode_failure_behaviour behRet "ev" (lnr 5) msgEv msgEv3 (.str "junk") lmEv5 []
      rfl (fun _ => rfl) rfl rfl rfl rfl rfl⟩
